import Mathlib

/-!
Verification of the signal computation and ranking engine of `main.py`
(function `compute_signals`).

The engine receives, per ticker, a date-indexed daily series of possibly
missing Close and Volume values.  Per ticker it drops the missing values,
applies a 60-observation minimum-history gate, computes trailing simple
moving averages (windows 5, 20, 60 on Close and 20 on Volume), derives a
golden-cross flag, a volume-spike flag, the percent distance above the
60-period average and the day change, and assembles one record.  The
assembled records are sorted by a fixed descending multi-key ranking, and
an empty assembled set is the sole propagated error.

Floating point values are modelled as rationals (exact arithmetic); the
IEEE rule that every comparison against NaN is false is modelled by
comparisons on `Option` that are false when a value is missing.
-/

/-- One raw daily observation of a ticker: a date index and possibly
missing Close and Volume values (provider gaps are `none`). -/
structure Row where
  date : ℕ
  close : Option ℚ
  volume : Option ℚ
deriving DecidableEq

/-- One output record per qualifying ticker, mirroring the dict appended
to `rows` in `compute_signals`. -/
structure SignalRecord where
  ticker : String
  date : ℕ
  price : ℚ
  d_change : Option ℚ
  golden_cross_5_20 : Bool
  vol_spike_vs_20d : Bool
  above_ma60 : Option ℚ
deriving DecidableEq

/-- `close = data[(t, "Close")].dropna()`: the date-indexed Close series
with missing values removed. -/
def cleanClose (s : List Row) : List (ℕ × ℚ) :=
  s.filterMap (fun r => r.close.map (fun c => (r.date, c)))

/-- The Close values of the filtered series. -/
def closes (s : List Row) : List ℚ :=
  (cleanClose s).map Prod.snd

/-- `vol = data[(t, "Volume")].dropna()`: the Volume series with missing
values removed. -/
def cleanVolume (s : List Row) : List ℚ :=
  s.filterMap Row.volume

/-- `l.rolling(w).mean()` evaluated at position `i`: the trailing simple
moving average over `w` observations, defined only when at least `w`
observations exist at or before `i` (pandas default `min_periods = w`). -/
def rollingMeanAt (w : ℕ) (l : List ℚ) (i : ℕ) : Option ℚ :=
  if w ≤ i + 1 ∧ i < l.length then
    some ((((l.take (i + 1)).drop (i + 1 - w)).sum) / w)
  else none

/-- Comparison of two possibly-missing floats, with the IEEE rule that a
comparison against NaN is false: `x < y` holds only when both are present. -/
def optLt (a b : Option ℚ) : Bool :=
  match a, b with
  | some x, some y => decide (x < y)
  | _, _ => false

/-- `round(q, d)`: round to `d` decimal places. -/
def roundTo (d : ℕ) (q : ℚ) : ℚ :=
  ((round (q * 10 ^ d) : ℤ) : ℚ) / 10 ^ d

/-- Outcome of the per-ticker loop body of `compute_signals`: a record
appended to `rows`, the logged skip for insufficient history, or a caught
computation exception (the loop body can only raise on an empty Volume
series, where `vol20.iloc[-1]` is an out-of-bounds access). -/
inductive TickerOutcome where
  | ok (rec : SignalRecord)
  | insufficient
  | compFailure
deriving DecidableEq

/-- The record built by the loop body once the minimum-history gate has
passed and the Volume series is nonempty. -/
def buildRecord (t : String) (s : List Row) : SignalRecord :=
  let closeS := cleanClose s
  let close := closes s
  let vol := cleanVolume s
  let n := close.length
  let ma5_prev := rollingMeanAt 5 close (n - 2)
  let ma20_prev := rollingMeanAt 20 close (n - 2)
  let ma5_last := rollingMeanAt 5 close (n - 1)
  let ma20_last := rollingMeanAt 20 close (n - 1)
  let ma60_last := rollingMeanAt 60 close (n - 1)
  let vol20_last := rollingMeanAt 20 vol (vol.length - 1)
  let last_date := (closeS.map Prod.fst).getLastD 0
  let price := close.getLastD 0
  let dchg : Option ℚ :=
    if 1 < close.length then some ((price / close.getD (n - 2) 0 - 1) * 100) else none
  let golden_cross := optLt ma5_prev ma20_prev && optLt ma20_last ma5_last
  let vol_spike :=
    match vol20_last with
    | some m => decide ((1.5 : ℚ) * m < vol.getLastD 0)
    | none => false
  let above_ma60 := ma60_last.map (fun m => (price / m - 1) * 100)
  { ticker := t
    date := last_date
    price := roundTo 4 price
    d_change := dchg.map (roundTo 2)
    golden_cross_5_20 := golden_cross
    vol_spike_vs_20d := vol_spike
    above_ma60 := above_ma60.map (roundTo 2) }

/-- The body of the per-ticker loop of `compute_signals` in `main.py`. -/
def computeTicker (t : String) (s : List Row) : TickerOutcome :=
  if (closes s).length < 60 then .insufficient
  else if (cleanVolume s).length = 0 then .compFailure
  else .ok (buildRecord t s)

/-- `sorted(set(universe))`: the deduplicated ticker identifiers in
ascending lexicographic order. -/
def tickerUniverse (data : List (String × List Row)) : List String :=
  List.insertionSort (· ≤ ·) (data.map Prod.fst).dedup

/-- The `rows` list assembled by the per-ticker loop: one record per ticker
whose loop body reached `rows.append`. -/
def assembleRows (data : List (String × List Row)) : List SignalRecord :=
  (tickerUniverse data).filterMap (fun t =>
    match computeTicker t ((data.lookup t).getD []) with
    | .ok rec => some rec
    | _ => none)

/-- A possibly-missing numeric sort key, with missing values below every
present value (pandas sends NaN keys to the end of a descending sort). -/
def optBot (o : Option ℚ) : WithBot ℚ :=
  match o with
  | none => ⊥
  | some q => (q : WithBot ℚ)

/-- The ranking order of `df.sort_values(["golden_cross_5_20",
"vol_spike_vs_20d", "above_ma60_%", "d_change_%"], ascending=[False,
False, False, False])`: `rankLe a b` says record `a` may appear at or
before record `b`.  Each key is compared independently and descending,
`true` before `false`, missing numeric values after all present ones. -/
def rankLe (a b : SignalRecord) : Prop :=
  b.golden_cross_5_20 < a.golden_cross_5_20 ∨
    (b.golden_cross_5_20 = a.golden_cross_5_20 ∧
      (b.vol_spike_vs_20d < a.vol_spike_vs_20d ∨
        (b.vol_spike_vs_20d = a.vol_spike_vs_20d ∧
          (optBot b.above_ma60 < optBot a.above_ma60 ∨
            (optBot b.above_ma60 = optBot a.above_ma60 ∧
              optBot b.d_change ≤ optBot a.d_change)))))

instance : DecidableRel rankLe := fun a b => by
  unfold rankLe; infer_instance

/-- The lexicographic key underlying `rankLe`: `rankLe a b` iff the key of
`b` is at most the key of `a`. -/
def rankKey (r : SignalRecord) : Bool ×ₗ Bool ×ₗ WithBot ℚ ×ₗ WithBot ℚ :=
  toLex (r.golden_cross_5_20,
    toLex (r.vol_spike_vs_20d,
      toLex (optBot r.above_ma60, optBot r.d_change)))

theorem rankLe_iff (a b : SignalRecord) : rankLe a b ↔ rankKey b ≤ rankKey a := by
  unfold rankLe rankKey
  rw [Prod.Lex.le_iff, Prod.Lex.le_iff, Prod.Lex.le_iff]

instance : IsTotal SignalRecord rankLe :=
  ⟨fun a b => by
    rw [rankLe_iff, rankLe_iff]
    exact le_total (rankKey b) (rankKey a)⟩

instance : IsTrans SignalRecord rankLe :=
  ⟨fun a b c hab hbc => by
    rw [rankLe_iff] at *
    exact le_trans hbc hab⟩

/-- `df.sort_values(...)` on the assembled rows: a stable sort by
`rankLe`. -/
def sortRecords (l : List SignalRecord) : List SignalRecord :=
  List.insertionSort rankLe l

/-- The message of the `RuntimeError` raised when no ticker produced a
row. -/
def noUsableOutputMsg : String :=
  "no usable output: all tickers may have insufficient data"

/-- `compute_signals` of `main.py`: assemble one record per qualifying
ticker, fail when the assembled set is empty, otherwise return the ranked
records. -/
def compute_signals (data : List (String × List Row)) : Except String (List SignalRecord) :=
  let rows := assembleRows data
  if rows.isEmpty then .error noUsableOutputMsg
  else .ok (sortRecords rows)

/-! ### Helper lemmas -/

theorem computeTicker_eq_ok (t : String) (s : List Row) (rec : SignalRecord)
    (h : computeTicker t s = TickerOutcome.ok rec) :
    rec = buildRecord t s ∧ ¬ (closes s).length < 60 ∧ (cleanVolume s).length ≠ 0 := by
  by_cases h1 : (closes s).length < 60
  · simp [computeTicker, h1] at h
  · by_cases h2 : (cleanVolume s).length = 0
    · simp [computeTicker, h1, h2] at h
    · simp [computeTicker, h1, h2] at h
      exact ⟨h.symm, h1, h2⟩

theorem computeTicker_ok_ticker (t : String) (s : List Row) (rec : SignalRecord)
    (h : computeTicker t s = TickerOutcome.ok rec) : rec.ticker = t := by
  rw [(computeTicker_eq_ok t s rec h).1]
  rfl

theorem buildRecord_golden (t : String) (s : List Row) :
    (buildRecord t s).golden_cross_5_20 =
      (optLt (rollingMeanAt 5 (closes s) ((closes s).length - 2))
             (rollingMeanAt 20 (closes s) ((closes s).length - 2)) &&
       optLt (rollingMeanAt 20 (closes s) ((closes s).length - 1))
             (rollingMeanAt 5 (closes s) ((closes s).length - 1))) := rfl

theorem buildRecord_spike (t : String) (s : List Row) :
    (buildRecord t s).vol_spike_vs_20d =
      (match rollingMeanAt 20 (cleanVolume s) ((cleanVolume s).length - 1) with
       | some m => decide ((1.5 : ℚ) * m < (cleanVolume s).getLastD 0)
       | none => false) := rfl

theorem buildRecord_above (t : String) (s : List Row) :
    (buildRecord t s).above_ma60 =
      (rollingMeanAt 60 (closes s) ((closes s).length - 1)).map
        (fun m => roundTo 2 (((closes s).getLastD 0 / m - 1) * 100)) := by
  show ((rollingMeanAt 60 (closes s) ((closes s).length - 1)).map
      (fun m => (((closes s).getLastD 0 / m - 1) * 100))).map (roundTo 2) = _
  rw [Option.map_map]
  rfl

/-! ### Witness data: one ticker with 60 clean observations -/

/-- A witness series: 60 clean observations, Close and Volume both one. -/
def wRows : List Row :=
  List.replicate 60 { date := 0, close := some 1, volume := some 1 }

def wData : List (String × List Row) := [("A", wRows)]

/-- The record the engine produces for `wRows`. -/
def wRec : SignalRecord :=
  { ticker := "A", date := 0, price := 1, d_change := some 0,
    golden_cross_5_20 := false, vol_spike_vs_20d := false, above_ma60 := some 0 }

theorem computeTicker_wRows : computeTicker "A" wRows = TickerOutcome.ok wRec := by
  simp [computeTicker, buildRecord, wRows, wRec, closes, cleanClose, cleanVolume,
    rollingMeanAt, List.filterMap_replicate, List.take_replicate, List.drop_replicate,
    List.sum_replicate, optLt, roundTo]
  norm_num [round_eq]

theorem compute_signals_wData : compute_signals wData = Except.ok [wRec] := by
  have h1 : assembleRows wData = [wRec] := by
    simp [assembleRows, tickerUniverse, wData, List.insertionSort, computeTicker_wRows]
  rw [compute_signals, h1]
  simp [sortRecords, List.insertionSort]

/-! ### Claims -/

/-- Claim C1: the ranked output is ordered by descending priority on the
key tuple (goldenCross5x20, volumeSpike, aboveLongMAPct, dayChangePct),
each component compared independently and all descending, booleans with
true before false, and absent numeric fields after all present values of
that field. -/
theorem C1_ranking_sorted (data : List (String × List Row)) (out : List SignalRecord)
    (h : compute_signals data = Except.ok out) : List.Sorted rankLe out := by
  unfold compute_signals at h
  by_cases he : (assembleRows data).isEmpty
  · simp [he] at h
  · simp [he] at h
    rw [← h]
    exact List.sorted_insertionSort rankLe (assembleRows data)

theorem C1_witness : List.Sorted rankLe [wRec] :=
  C1_ranking_sorted wData [wRec] compute_signals_wData

/-- Claim C8: the engine is deterministic: running signal computation and
ranking on identical input data yields the identical ordered sequence of
records, with no state carried between runs. -/
theorem C8_deterministic (d1 d2 : List (String × List Row)) (h : d1 = d2) :
    compute_signals d1 = compute_signals d2 := by
  rw [h]

theorem C8_witness : compute_signals wData = compute_signals wData :=
  C8_deterministic wData wData rfl

/-! ### Evaluation helpers for the witness data -/

theorem optLt_none_left (b : Option ℚ) : optLt none b = false := rfl

theorem optLt_none_right (a : Option ℚ) : optLt a none = false := by
  cases a <;> rfl

theorem closes_wRows : closes wRows = List.replicate 60 (1 : ℚ) := by
  simp [closes, cleanClose, wRows, List.filterMap_replicate]

theorem cleanVolume_wRows : cleanVolume wRows = List.replicate 60 (1 : ℚ) := by
  simp [cleanVolume, wRows, List.filterMap_replicate]

theorem rollingMean_replicate_one (w i : ℕ) (hw : w ≠ 0) (h1 : w ≤ i + 1) (h2 : i < 60) :
    rollingMeanAt w (List.replicate 60 (1 : ℚ)) i = some 1 := by
  unfold rollingMeanAt
  rw [if_pos ⟨h1, by simpa using h2⟩]
  rw [List.take_replicate, List.drop_replicate, List.sum_replicate]
  congr 1
  have e1 : min (i + 1) 60 = i + 1 := by omega
  have e2 : i + 1 - (i + 1 - w) = w := by omega
  rw [e1, e2, nsmul_eq_mul, mul_one, div_self]
  exact_mod_cast hw

/-- Claim C3: for every included ticker, goldenCross5x20 is true iff MA5
at the second-to-last position is strictly below MA20 there and MA5 at the
last position is strictly above MA20 there (equality on either side does
not count); when any of the four moving averages is undefined the ticker
is still included (the record exists) with goldenCross5x20 = false. -/
theorem C3_golden_cross (t : String) (s : List Row) (rec : SignalRecord)
    (h : computeTicker t s = TickerOutcome.ok rec) :
    (∀ p5 p20 l5 l20 : ℚ,
        rollingMeanAt 5 (closes s) ((closes s).length - 2) = some p5 →
        rollingMeanAt 20 (closes s) ((closes s).length - 2) = some p20 →
        rollingMeanAt 5 (closes s) ((closes s).length - 1) = some l5 →
        rollingMeanAt 20 (closes s) ((closes s).length - 1) = some l20 →
        (rec.golden_cross_5_20 = true ↔ (p5 < p20 ∧ l20 < l5))) ∧
    ((rollingMeanAt 5 (closes s) ((closes s).length - 2) = none ∨
      rollingMeanAt 20 (closes s) ((closes s).length - 2) = none ∨
      rollingMeanAt 5 (closes s) ((closes s).length - 1) = none ∨
      rollingMeanAt 20 (closes s) ((closes s).length - 1) = none) →
      rec.golden_cross_5_20 = false) := by
  obtain ⟨hrec, -, -⟩ := computeTicker_eq_ok t s rec h
  subst hrec
  rw [buildRecord_golden]
  constructor
  · intro p5 p20 l5 l20 h1 h2 h3 h4
    rw [h1, h2, h3, h4]
    simp [optLt]
  · rintro (h1 | h1 | h1 | h1) <;> rw [h1] <;>
      simp [optLt_none_left, optLt_none_right]

theorem C3_witness : wRec.golden_cross_5_20 = true ↔ ((1 : ℚ) < 1 ∧ (1 : ℚ) < 1) :=
  (C3_golden_cross "A" wRows wRec computeTicker_wRows).1 1 1 1 1
    (by rw [closes_wRows]
        exact rollingMean_replicate_one 5 58 (by norm_num) (by norm_num) (by norm_num))
    (by rw [closes_wRows]
        exact rollingMean_replicate_one 20 58 (by norm_num) (by norm_num) (by norm_num))
    (by rw [closes_wRows]
        exact rollingMean_replicate_one 5 59 (by norm_num) (by norm_num) (by norm_num))
    (by rw [closes_wRows]
        exact rollingMean_replicate_one 20 59 (by norm_num) (by norm_num) (by norm_num))

/-- Claim C4: for every included ticker, volumeSpike is true iff the last
volume value strictly exceeds 1.5 times the trailing 20-period average
volume at the last position, and is false (the record still exists, the
field is a boolean and never absent) whenever that average is undefined. -/
theorem C4_volume_spike (t : String) (s : List Row) (rec : SignalRecord)
    (h : computeTicker t s = TickerOutcome.ok rec) :
    (∀ m : ℚ,
        rollingMeanAt 20 (cleanVolume s) ((cleanVolume s).length - 1) = some m →
        (rec.vol_spike_vs_20d = true ↔ (1.5 : ℚ) * m < (cleanVolume s).getLastD 0)) ∧
    (rollingMeanAt 20 (cleanVolume s) ((cleanVolume s).length - 1) = none →
      rec.vol_spike_vs_20d = false) := by
  obtain ⟨hrec, -, -⟩ := computeTicker_eq_ok t s rec h
  subst hrec
  rw [buildRecord_spike]
  constructor
  · intro m hm
    rw [hm]
    simp
  · intro hm
    rw [hm]

theorem C4_witness :
    wRec.vol_spike_vs_20d = true ↔ (1.5 : ℚ) * 1 < (cleanVolume wRows).getLastD 0 :=
  (C4_volume_spike "A" wRows wRec computeTicker_wRows).1 1
    (by rw [cleanVolume_wRows]
        exact rollingMean_replicate_one 20 59 (by norm_num) (by norm_num) (by norm_num))

/-- Claim C5: for every included ticker, aboveLongMAPct equals
(lastPrice / MA60[last] - 1) * 100 rounded to 2 decimal places when
MA60[last] is defined, and is absent exactly when MA60[last] is
undefined. -/
theorem C5_above_ma60 (t : String) (s : List Row) (rec : SignalRecord)
    (h : computeTicker t s = TickerOutcome.ok rec) :
    (∀ m : ℚ,
        rollingMeanAt 60 (closes s) ((closes s).length - 1) = some m →
        rec.above_ma60 = some (roundTo 2 (((closes s).getLastD 0 / m - 1) * 100))) ∧
    (rec.above_ma60 = none ↔ rollingMeanAt 60 (closes s) ((closes s).length - 1) = none) := by
  obtain ⟨hrec, -, -⟩ := computeTicker_eq_ok t s rec h
  subst hrec
  rw [buildRecord_above]
  constructor
  · intro m hm
    rw [hm]
    simp
  · simp

theorem C5_witness :
    wRec.above_ma60 = some (roundTo 2 (((closes wRows).getLastD 0 / 1 - 1) * 100)) :=
  (C5_above_ma60 "A" wRows wRec computeTicker_wRows).1 1
    (by rw [closes_wRows]
        exact rollingMean_replicate_one 60 59 (by norm_num) (by norm_num) (by norm_num))

/-! ### Remaining claims -/

theorem closes_cons_none (r : Row) (rest : List Row) (hc : r.close = none) :
    closes (r :: rest) = closes rest := by
  simp [closes, cleanClose, List.filterMap_cons, hc]

theorem closes_cons_some (r : Row) (rest : List Row) (c : ℚ) (hc : r.close = some c) :
    closes (r :: rest) = c :: closes rest := by
  simp [closes, cleanClose, List.filterMap_cons, hc]

theorem cleanVolume_cons_none (r : Row) (rest : List Row) (hv : r.volume = none) :
    cleanVolume (r :: rest) = cleanVolume rest := by
  simp [cleanVolume, List.filterMap_cons, hv]

theorem cleanVolume_cons_some (r : Row) (rest : List Row) (v : ℚ) (hv : r.volume = some v) :
    cleanVolume (r :: rest) = v :: cleanVolume rest := by
  simp [cleanVolume, List.filterMap_cons, hv]

theorem cleanLen (s : List Row) (hclean : ∀ r ∈ s, r.close.isSome = r.volume.isSome) :
    (s.filter (fun r => r.close.isSome && r.volume.isSome)).length = (closes s).length ∧
    (cleanVolume s).length = (closes s).length := by
  induction s with
  | nil => simp [closes, cleanClose, cleanVolume]
  | cons r rest ih =>
    have hr : r.close.isSome = r.volume.isSome := hclean r (by simp)
    obtain ⟨ih1, ih2⟩ := ih (fun x hx => hclean x (List.mem_cons_of_mem r hx))
    rcases hc : r.close with _ | c <;> rcases hv : r.volume with _ | v <;>
      rw [hc, hv] at hr <;> simp at hr
    · rw [closes_cons_none r rest hc, cleanVolume_cons_none r rest hv]
      refine ⟨?_, ih2⟩
      rw [List.filter_cons_of_neg (by simp [hc])]
      exact ih1
    · rw [closes_cons_some r rest c hc, cleanVolume_cons_some r rest v hv]
      constructor
      · rw [List.filter_cons_of_pos (by simp [hc, hv])]
        simp [ih1]
      · simp [ih2]

/-- Claim C2: for every ticker whose series has no partial gaps (a row has
a Close value exactly when it has a Volume value, so clean observations
are unambiguous), fewer than 60 clean observations means the ticker is
excluded with the logged insufficient-history diagnostic (hence exactly 59
excludes), and exactly 60 clean observations means a record is produced. -/
theorem C2_min_history_gate (t : String) (s : List Row)
    (hclean : ∀ r ∈ s, r.close.isSome = r.volume.isSome) :
    ((s.filter (fun r => r.close.isSome && r.volume.isSome)).length < 60 →
      computeTicker t s = TickerOutcome.insufficient) ∧
    ((s.filter (fun r => r.close.isSome && r.volume.isSome)).length = 60 →
      ∃ rec, computeTicker t s = TickerOutcome.ok rec) := by
  obtain ⟨h1, h2⟩ := cleanLen s hclean
  constructor
  · intro hlt
    rw [h1] at hlt
    simp [computeTicker, hlt]
  · intro heq
    rw [h1] at heq
    have hv : (cleanVolume s).length = 60 := by rw [h2, heq]
    refine ⟨buildRecord t s, ?_⟩
    simp [computeTicker, heq, hv]

theorem C2_witness : ∃ rec, computeTicker "A" wRows = TickerOutcome.ok rec :=
  (C2_min_history_gate "A" wRows (by decide)).2 (by decide)

/-- Claim C6: for every series with at least 60 clean observations, the
60-period moving average at the last position equals the arithmetic mean
of the last 60 Close values exactly; positions with fewer than 60
observations at or before them are undefined (no partial-window
averaging), and appending future observations does not change the value
at an existing position (no look-ahead). -/
theorem C6_ma60_exact (l : List ℚ) (h : 60 ≤ l.length) :
    rollingMeanAt 60 l (l.length - 1) = some ((l.drop (l.length - 60)).sum / 60) ∧
    (∀ i, i + 1 < 60 → rollingMeanAt 60 l i = none) ∧
    (∀ ext : List ℚ, ∀ i, i < l.length →
      rollingMeanAt 60 (l ++ ext) i = rollingMeanAt 60 l i) := by
  refine ⟨?_, ?_, ?_⟩
  · unfold rollingMeanAt
    rw [if_pos ⟨by omega, by omega⟩]
    have e1 : l.length - 1 + 1 = l.length := by omega
    rw [e1, List.take_length]
    norm_cast
  · intro i hi
    unfold rollingMeanAt
    rw [if_neg]
    rintro ⟨h1, -⟩
    omega
  · intro ext i hi
    unfold rollingMeanAt
    rw [List.take_append_of_le_length (by omega)]
    by_cases h60 : 60 ≤ i + 1
    · rw [if_pos ⟨h60, by simp [List.length_append]; omega⟩, if_pos ⟨h60, hi⟩]
    · rw [if_neg (fun hc => h60 hc.1), if_neg (fun hc => h60 hc.1)]

theorem C6_witness :
    rollingMeanAt 60 (List.replicate 60 (1 : ℚ)) ((List.replicate 60 (1 : ℚ)).length - 1) =
      some (((List.replicate 60 (1 : ℚ)).drop
        ((List.replicate 60 (1 : ℚ)).length - 60)).sum / 60) :=
  (C6_ma60_exact (List.replicate 60 1) (by simp)).1

/-- Claim C7: the engine fails with the no-usable-output condition iff
zero tickers produce a record; a per-ticker computation fault is converted
to exclusion of that ticker only (a faulting ticker never appears in a
successful output), and the emptiness condition is the sole propagated
error. -/
theorem C7_sole_error (data : List (String × List Row)) :
    ((∃ e, compute_signals data = Except.error e) ↔
      ∀ t ∈ tickerUniverse data, ∀ rec,
        computeTicker t ((data.lookup t).getD []) ≠ TickerOutcome.ok rec) ∧
    (∀ t ∈ tickerUniverse data,
      computeTicker t ((data.lookup t).getD []) = TickerOutcome.compFailure →
      ∀ out, compute_signals data = Except.ok out → ∀ r ∈ out, r.ticker ≠ t) := by
  have hempty : (∃ e, compute_signals data = Except.error e) ↔ assembleRows data = [] := by
    unfold compute_signals
    by_cases he : (assembleRows data).isEmpty
    · simp [he]
      exact List.isEmpty_iff.mp he
    · simp [he]
      intro hnil
      exact he (by simp [hnil])
  constructor
  · rw [hempty, assembleRows, List.filterMap_eq_nil_iff]
    constructor
    · intro hall t ht rec hok
      have hx := hall t ht
      rw [hok] at hx
      simp at hx
    · intro hall t ht
      rcases hco : computeTicker t ((data.lookup t).getD []) with rec | _ | _
      · exact absurd hco (hall t ht rec)
      · rfl
      · rfl
  · intro t ht hfail out hout r hr hticker
    have hmem : r ∈ assembleRows data := by
      unfold compute_signals at hout
      by_cases he : (assembleRows data).isEmpty
      · simp [he] at hout
      · simp [he] at hout
        rw [← hout] at hr
        exact ((List.perm_insertionSort rankLe (assembleRows data)).mem_iff).mp hr
    obtain ⟨a, hamem, hfa⟩ := List.mem_filterMap.mp hmem
    rcases hco : computeTicker a ((data.lookup a).getD []) with rec | _ | _ <;>
      rw [hco] at hfa
    · simp only [Option.some.injEq] at hfa
      have hta : r.ticker = a := by
        rw [← hfa]
        exact computeTicker_ok_ticker a _ rec hco
      have hat : a = t := by rw [← hta, hticker]
      rw [hat, hfail] at hco
      simp at hco
    · simp at hfa
    · simp at hfa

/-- Claim C9: records are assembled by iterating the deduplicated ticker
universe in ascending lexicographic order, so the sequence entering the
ranking sort is strictly alphabetical by ticker; consequently every ticker
appears at most once in the final output. -/
theorem C9_tickers_unique_alphabetical (data : List (String × List Row)) :
    (assembleRows data).Pairwise (fun a b => a.ticker < b.ticker) ∧
    (∀ out, compute_signals data = Except.ok out →
      (out.map SignalRecord.ticker).Nodup) := by
  have huniv : (tickerUniverse data).Pairwise (fun a b => a < b) := by
    have hsorted : List.Sorted (· ≤ ·) (tickerUniverse data) :=
      List.sorted_insertionSort (· ≤ ·) (data.map Prod.fst).dedup
    have hnodup : (tickerUniverse data).Nodup :=
      ((List.perm_insertionSort (· ≤ ·) (data.map Prod.fst).dedup).nodup_iff).mpr
        (List.nodup_dedup _)
    exact hsorted.lt_of_le hnodup
  have hpair : (assembleRows data).Pairwise (fun a b => a.ticker < b.ticker) := by
    rw [assembleRows, List.pairwise_filterMap]
    refine huniv.imp ?_
    intro a b hab
    intro x hx y hy
    rcases hca : computeTicker a ((data.lookup a).getD []) with reca | _ | _ <;>
      rw [hca] at hx <;> simp at hx
    rcases hcb : computeTicker b ((data.lookup b).getD []) with recb | _ | _ <;>
      rw [hcb] at hy <;> simp at hy
    rw [hx] at hca
    rw [hy] at hcb
    rw [computeTicker_ok_ticker a _ x hca, computeTicker_ok_ticker b _ y hcb]
    exact hab
  refine ⟨hpair, ?_⟩
  intro out hout
  have hperm : out.Perm (assembleRows data) := by
    unfold compute_signals at hout
    by_cases he : (assembleRows data).isEmpty
    · simp [he] at hout
    · simp [he] at hout
      rw [← hout]
      exact List.perm_insertionSort rankLe (assembleRows data)
  have hnd : ((assembleRows data).map SignalRecord.ticker).Nodup :=
    List.Pairwise.map SignalRecord.ticker (fun a b h => ne_of_lt h) hpair
  exact ((hperm.map SignalRecord.ticker).nodup_iff).mpr hnd

/-- Claim C10: the inclusion gate counts only non-missing Close values:
a ticker with at least 60 non-missing Close values is included even when
its Volume series has fewer than 20 (but at least one) non-missing
values, in which case volumeSpike is false; and for every series, the
insufficient-history exclusion depends only on the count of non-missing
Close values. -/
theorem C10_gate_ignores_volume (t : String) (s : List Row)
    (hc : 60 ≤ (closes s).length)
    (hv1 : 1 ≤ (cleanVolume s).length) (hv20 : (cleanVolume s).length < 20) :
    (∃ rec, computeTicker t s = TickerOutcome.ok rec ∧ rec.vol_spike_vs_20d = false) ∧
    (∀ s2 : List Row, computeTicker t s2 = TickerOutcome.insufficient ↔
      (closes s2).length < 60) := by
  constructor
  · have h1 : ¬ (closes s).length < 60 := by omega
    have h2 : ¬ (cleanVolume s).length = 0 := by omega
    have hnone : rollingMeanAt 20 (cleanVolume s) ((cleanVolume s).length - 1) = none := by
      unfold rollingMeanAt
      rw [if_neg]
      rintro ⟨ha, -⟩
      omega
    refine ⟨buildRecord t s, ?_, ?_⟩
    · simp [computeTicker, h1, h2]
    · rw [buildRecord_spike, hnone]
  · intro s2
    constructor
    · intro h
      by_contra hge
      by_cases hv : (cleanVolume s2).length = 0 <;> simp [computeTicker, hge, hv] at h
    · intro h
      simp [computeTicker, h]

def wRowsPartial : List Row :=
  List.replicate 5 { date := 0, close := some 1, volume := some 1 } ++
  List.replicate 55 { date := 0, close := some 1, volume := none }

theorem C10_witness :
    ∃ rec, computeTicker "B" wRowsPartial = TickerOutcome.ok rec ∧
      rec.vol_spike_vs_20d = false :=
  (C10_gate_ignores_volume "B" wRowsPartial (by decide) (by decide) (by decide)).1

/-- A series with 60 non-missing Close values of which only 59 rows are
fully clean: one row has a Volume gap. -/
def cexRows : List Row :=
  List.replicate 59 { date := 0, close := some 1, volume := some 1 } ++
  [{ date := 0, close := some 1, volume := none }]

/-- Counterexample to claim C2 as stated: this series has only 59 clean
observations in the sense of the glossary (rows with both Close and
Volume present), yet the ticker is included, because the gate of the code
counts non-missing Close values alone. -/
theorem C2_counterexample :
    (cexRows.filter (fun r => r.close.isSome && r.volume.isSome)).length = 59 ∧
    ∃ rec, computeTicker "A" cexRows = TickerOutcome.ok rec := by
  constructor
  · decide
  · have h1 : ¬ (closes cexRows).length < 60 := by decide
    have h2 : ¬ (cleanVolume cexRows).length = 0 := by decide
    refine ⟨buildRecord "A" cexRows, ?_⟩
    simp [computeTicker, h1, h2]
